import Mathlib

/-!
Verification development for the MMT queue scheduler (MMTQueue.py, queueTools.py).

The scheduler's numeric quantities (Python floats holding times in seconds,
angles in degrees, visit counts, hours) are modelled as rationals; the
ephemeris oracle (pyEphem / MMTEphem), which is external to the repository,
enters as explicit parameters: previous moon rise/set instants, moon age,
angular separations, and an observability oracle `isObs : time -> Bool`
standing for `isObservable` evaluated against a target's precomputed series.
-/

namespace MMTQueue

/-! ### Visibility and rotator check (MMTQueue.getRotatorObservable) -/

/-- The rotator angle in degrees: `rotAngle = parAngle*180/pi - pa`, then
`if rotAngle < -180: rotAngle += 360`.  `parAngleDeg` is the parallactic
angle already converted to degrees (the source converts from the ephemeris
radians value). -/
def rotAngleWrapped (parAngleDeg pa : ℚ) : ℚ :=
  let rotAngle := parAngleDeg - pa
  if rotAngle < -180 then rotAngle + 360 else rotAngle

/-- `getRotatorObservable`: 1 when the wrapped rotator angle lies strictly
inside `rot_limits = [-180, 164]`, else 0. -/
def getRotatorObservable (parAngleDeg pa : ℚ) : ℤ :=
  if -180 < rotAngleWrapped parAngleDeg pa ∧ rotAngleWrapped parAngleDeg pa < 164 then 1
  else 0

/-! ### Lunar admissibility (MMTQueue.moonUpDuringObs, MMTQueue.calcMoonFlag) -/

/-- `moonUpDuringObs`: at each of the two instants the source compares the
previous moon set with the previous moon rise; the instant is "moon down"
when the most recent event was the set (`prevMoonSet > prevMoonRise`).
Returns `int(moonAtStart | moonAtEnd)`. -/
def moonUpDuringObs (prevSetStart prevRiseStart prevSetEnd prevRiseEnd : ℚ) : ℤ :=
  if (¬ prevSetStart > prevRiseStart) ∨ (¬ prevSetEnd > prevRiseEnd) then 1 else 0

/-- `calcMoonFlag`: the if/elif chain on the requested moon condition,
moon age (days, signed) and the averaged angular distance to the moon
(degrees), followed by the unconditional too-close override. -/
def calcMoonFlag (moonReq : String) (moonUp : ℤ) (moonAge moonDist : ℚ) : ℤ :=
  let illumFlag : ℤ :=
    if moonReq = "bright" ∨ moonUp = 0 then 1
    else if moonReq = "grey" ∧ |moonAge| < 9 ∧ moonDist < 90 then 1
    else if moonReq = "dark" ∧ |moonAge| < 4.5 ∧ moonDist > 90 then 1
    else 0
  if moonDist < 10 then 0 else illumFlag

/-- The lunar flag as the claim states it (spec wording): grey time demands a
separation *greater* than 90 degrees.  Kept only to compare against the
source's `calcMoonFlag`, whose grey branch tests `moonDist < 90`. -/
def moonFlagClaimed (moonReq : String) (moonDownBoth : Bool) (moonAge moonDist : ℚ) : ℤ :=
  if moonDist < 10 then 0
  else if moonReq = "bright" ∨ moonDownBoth = true ∨
      (moonReq = "grey" ∧ |moonAge| < 9 ∧ 90 < moonDist) ∨
      (moonReq = "dark" ∧ |moonAge| < 4.5 ∧ 90 < moonDist) then 1
  else 0

/-! ### Fairness weight (MMTQueue.obsUpdateRow, lines 346-349) -/

/-- `weightTAC = 1.0 - 1.0 * doneTime / totalTime`, replaced by `0.001`
when negative. -/
def weightTAC (doneTime totalTime : ℚ) : ℚ :=
  let weight := 1 - 1 * doneTime / totalTime
  if weight < 0 then 0.001 else weight

/-! ### Helper lemmas -/

theorem moonUpDuringObs_eq_zero_iff (pss prs pse pre : ℚ) :
    moonUpDuringObs pss prs pse pre = 0 ↔ (pss > prs ∧ pse > pre) := by
  unfold moonUpDuringObs
  split_ifs with h
  · constructor
    · intro hc
      exact absurd hc (by omega)
    · intro hc
      rcases h with h | h
      · exact absurd hc.1 h
      · exact absurd hc.2 h
  · push_neg at h
    constructor
    · intro _
      exact h
    · intro _
      rfl

/-! ### Claim C1 -/

/-- Claim C1 counterexample: a grey-time request with moon up, moon age 5
days and averaged separation 100 degrees.  The claim (separation greater
than 90 degrees admits grey time) predicts flag 1, but the source's grey
branch tests `moonDist < 90`, so `calcMoonFlag` returns 0. -/
theorem calcMoonFlag_claim_counterexample :
    calcMoonFlag "grey" (moonUpDuringObs 1 2 1 2) 5 100 = 0 ∧
    moonFlagClaimed "grey" false 5 100 = 1 := by
  constructor
  · decide
  · decide

/-- Claim C1 (amended): the lunar flag is 0 whenever the averaged separation
is below 10 degrees; otherwise it is 1 exactly when the requester asked for
bright time, or the moon is down at both the start and the end of the window,
or (grey request, moon age magnitude below 9 days, separation *below* 90
degrees), or (dark request, moon age magnitude below 4.5 days, separation
above 90 degrees). -/
theorem calcMoonFlag_characterization
    (moonReq : String) (pss prs pse pre moonAge moonDist : ℚ) :
    (moonDist < 10 →
      calcMoonFlag moonReq (moonUpDuringObs pss prs pse pre) moonAge moonDist = 0) ∧
    (¬ moonDist < 10 →
      (calcMoonFlag moonReq (moonUpDuringObs pss prs pse pre) moonAge moonDist = 1 ↔
        (moonReq = "bright" ∨ (pss > prs ∧ pse > pre) ∨
          (moonReq = "grey" ∧ |moonAge| < 9 ∧ moonDist < 90) ∨
          (moonReq = "dark" ∧ |moonAge| < 4.5 ∧ 90 < moonDist)))) := by
  have hdown := moonUpDuringObs_eq_zero_iff pss prs pse pre
  constructor
  · intro h
    unfold calcMoonFlag
    simp [h]
  · intro h
    unfold calcMoonFlag
    simp only [gt_iff_lt, if_neg h]
    split_ifs with h1 h2 h3
    · simp only [show (1:ℤ) = 1 from rfl, true_iff]
      rcases h1 with h1 | h1
      · exact Or.inl h1
      · exact Or.inr (Or.inl (hdown.mp h1))
    · simp only [true_iff]
      exact Or.inr (Or.inr (Or.inl h2))
    · simp only [true_iff]
      exact Or.inr (Or.inr (Or.inr h3))
    · simp only [show (0:ℤ) ≠ 1 by omega, false_iff]
      push_neg at h1
      intro hc
      rcases hc with hc | hc | hc | hc
      · exact h1.1 hc
      · exact h1.2 (hdown.mpr hc)
      · exact h2 hc
      · exact h3 hc

/-- Claim C1 witness: a dark-time request far from a moon that is up,
with young moon. -/
theorem calcMoonFlag_characterization_witness :
    calcMoonFlag "dark" (moonUpDuringObs 5 3 5 3) 2 95 = 1 ↔
      ("dark" = "bright" ∨ ((5:ℚ) > 3 ∧ (5:ℚ) > 3) ∨
        ("dark" = "grey" ∧ |(2:ℚ)| < 9 ∧ (95:ℚ) < 90) ∨
        ("dark" = "dark" ∧ |(2:ℚ)| < 4.5 ∧ (90:ℚ) < 95)) :=
  (calcMoonFlag_characterization "dark" 5 3 5 3 2 95).2 (by norm_num)

/-! ### Claim C2 -/

/-- Claim C2 counterexample: a program with usage ratio exactly 1
(`doneTime = totalTime = 5`).  The claim demands the floor constant 0.001
(strictly positive), but the source only replaces the weight when it is
strictly negative, so the fairness weight is 0. -/
theorem weightTAC_claim_counterexample :
    (5:ℚ) / 5 ≥ 1 ∧ weightTAC 5 5 = 0 ∧ weightTAC 5 5 ≠ 0.001 := by
  refine ⟨by norm_num, ?_, ?_⟩ <;> (unfold weightTAC; norm_num)

/-- Claim C2 (amended): the fairness weight equals `1 - usageRatio`, replaced
by the floor constant 0.001 exactly when that difference is strictly
negative; a program with usage ratio strictly above 1 gets 0.001 (strictly
positive), while a program with usage ratio exactly 1 gets 0. -/
theorem weightTAC_floor_amended (doneTime totalTime : ℚ) :
    (1 < doneTime / totalTime →
      weightTAC doneTime totalTime = 0.001 ∧ 0 < weightTAC doneTime totalTime) ∧
    (doneTime / totalTime = 1 → weightTAC doneTime totalTime = 0) ∧
    weightTAC doneTime totalTime =
      (if 1 - doneTime / totalTime < 0 then 0.001 else 1 - doneTime / totalTime) := by
  refine ⟨?_, ?_, ?_⟩
  · intro h
    unfold weightTAC
    rw [one_mul, if_pos (by linarith)]
    norm_num
  · intro h
    unfold weightTAC
    rw [one_mul, h]
    norm_num
  · unfold weightTAC
    rw [one_mul]

/-- Claim C2 witness: usage ratio 3/2 yields the strictly positive floor. -/
theorem weightTAC_floor_amended_witness :
    weightTAC 3 2 = 0.001 ∧ 0 < weightTAC 3 2 :=
  (weightTAC_floor_amended 3 2).1 (by norm_num)

/-! ### Claim C8 -/

/-- Claim C8: the rotator angle is `parallacticAngle - positionAngle`,
wrapped by adding 360 degrees exactly when below -180; the in-bounds test is
strict against the fixed interval (-180, 164); and -200 degrees with
position angle 0 wraps to 160 degrees. -/
theorem rotator_wrap_and_bounds :
    (∀ parAngleDeg pa : ℚ,
      rotAngleWrapped parAngleDeg pa =
        (if parAngleDeg - pa < -180 then parAngleDeg - pa + 360 else parAngleDeg - pa)) ∧
    rotAngleWrapped (-200) 0 = 160 ∧
    (∀ parAngleDeg pa : ℚ,
      getRotatorObservable parAngleDeg pa =
        (if -180 < rotAngleWrapped parAngleDeg pa ∧ rotAngleWrapped parAngleDeg pa < 164
          then 1 else 0)) := by
  refine ⟨fun p a => rfl, ?_, fun p a => rfl⟩
  unfold rotAngleWrapped
  norm_num

/-! ### Fit computation (MMTQueue.willItFitWeight) -/

/-- Result triple of `willItFitWeight`: (weight, endTime, nVisits). -/
structure FitResult where
  fitWeight : ℚ
  endTime : ℚ
  nVisits : ℚ
deriving DecidableEq

/-- The `while nVisitsObservable >= 1` loop at the end of `willItFitWeight`:
project the end time for the candidate visit count, accept it if the target
is observable there, otherwise decrement and retry; fall through to the
bad-weight result. -/
def fitLoop (isObs : ℚ → Bool) (startTime expPerVisit overhead repeats : ℚ)
    (nVisitsObservable : ℚ) : FitResult :=
  if h : 1 ≤ nVisitsObservable then
    let totalTargetTime := expPerVisit * nVisitsObservable + overhead
    let endTime := startTime + totalTargetTime
    if isObs endTime then
      ⟨1 * nVisitsObservable / repeats, endTime, nVisitsObservable⟩
    else
      fitLoop isObs startTime expPerVisit overhead repeats (nVisitsObservable - 1)
  else
    ⟨0, startTime, 0⟩
termination_by (⌈nVisitsObservable⌉).toNat
decreasing_by
  have h2 : nVisitsObservable ≤ (⌈nVisitsObservable⌉ : ℚ) := Int.le_ceil nVisitsObservable
  have h1 : (1:ℤ) ≤ ⌈nVisitsObservable⌉ := by exact_mod_cast le_trans h h2
  have h3 : ⌈nVisitsObservable - 1⌉ = ⌈nVisitsObservable⌉ - 1 := by
    rw [show (1:ℚ) = ((1:ℤ):ℚ) by norm_num, Int.ceil_sub_int]
  rw [h3]
  omega

/-- `willItFitWeight`: the observability oracle `isObs` stands for
`isObservable(objEphem, t, fld)`; `exptimeMin` is the exposure time in
minutes (`fld['exptime']`), `nexp` the exposure count, `overhead` the
instrument overhead `mmirsOverhead(fld)` in seconds, `repeatsFld` the
requested visit count `fld['repeats']` and `doneVisit` the visits already
done (`donePar['doneVisit']`); times are seconds on a common axis. -/
def willItFitWeight (isObs : ℚ → Bool) (morningTwilight startTime : ℚ)
    (exptimeMin nexp overhead repeatsFld doneVisit : ℚ) : FitResult :=
  let timeRemaining := morningTwilight - startTime
  if isObs startTime = false then ⟨0, startTime, 0⟩
  else
    let exptime := exptimeMin * 60
    let repeats := repeatsFld - doneVisit
    let expPerVisit := exptime * nexp
    let possVisits : ℤ := ⌊(timeRemaining - overhead) / expPerVisit⌋
    if (possVisits : ℚ) > repeats then
      let totalTargetTime := expPerVisit * repeats + overhead
      let endTime := startTime + totalTargetTime
      if isObs endTime then ⟨1, endTime, repeats⟩
      else fitLoop isObs startTime expPerVisit overhead repeats repeats
    else fitLoop isObs startTime expPerVisit overhead repeats (possVisits : ℚ)

theorem cast_succ_shift (v : ℚ) (j : ℕ) : v - ((j + 1 : ℕ) : ℚ) = v - 1 - (j : ℚ) := by
  push_cast
  ring

/-- Full characterisation of the decrement loop: either it finds the
largest tested visit count that is observable at its projected end, or every
tested count fails and the bad-weight result is returned. -/
theorem fitLoop_spec (isObs : ℚ → Bool) (st epv oh repeats : ℚ) (v : ℚ) :
    (∃ k : ℕ, 1 ≤ v - k ∧ isObs (st + (epv * (v - k) + oh)) = true ∧
      fitLoop isObs st epv oh repeats v =
        ⟨(v - k) / repeats, st + (epv * (v - k) + oh), v - k⟩ ∧
      ∀ j : ℕ, j < k → isObs (st + (epv * (v - j) + oh)) = false) ∨
    (fitLoop isObs st epv oh repeats v = ⟨0, st, 0⟩ ∧
      ∀ j : ℕ, 1 ≤ v - j → isObs (st + (epv * (v - j) + oh)) = false) := by
  have main : ∀ m : ℕ, ∀ w : ℚ, (⌈w⌉).toNat ≤ m →
      (∃ k : ℕ, 1 ≤ w - k ∧ isObs (st + (epv * (w - k) + oh)) = true ∧
        fitLoop isObs st epv oh repeats w =
          ⟨(w - k) / repeats, st + (epv * (w - k) + oh), w - k⟩ ∧
        ∀ j : ℕ, j < k → isObs (st + (epv * (w - j) + oh)) = false) ∨
      (fitLoop isObs st epv oh repeats w = ⟨0, st, 0⟩ ∧
        ∀ j : ℕ, 1 ≤ w - j → isObs (st + (epv * (w - j) + oh)) = false) := by
    intro m
    induction m with
    | zero =>
      intro w hw
      have h1 : ¬ (1 ≤ w) := by
        intro hc
        have hle : w ≤ (⌈w⌉ : ℚ) := Int.le_ceil w
        have : (1:ℤ) ≤ ⌈w⌉ := by exact_mod_cast le_trans hc hle
        omega
      right
      constructor
      · unfold fitLoop
        rw [dif_neg h1]
      · intro j hj
        exfalso
        have hj0 : (0:ℚ) ≤ (j:ℚ) := Nat.cast_nonneg j
        push_neg at h1
        linarith
    | succ m ih =>
      intro w hw
      by_cases h1 : 1 ≤ w
      · cases hobs : isObs (st + (epv * w + oh)) with
        | true =>
          left
          refine ⟨0, ?_, ?_, ?_, ?_⟩
          · simpa using h1
          · simpa using hobs
          · unfold fitLoop
            rw [dif_pos h1, if_pos hobs]
            simp [one_mul]
          · intro j hj
            exact absurd hj (Nat.not_lt_zero j)
        | false =>
          have hmeas : (⌈w - 1⌉).toNat ≤ m := by
            have h3 : ⌈w - 1⌉ = ⌈w⌉ - 1 := by
              rw [show (1:ℚ) = ((1:ℤ):ℚ) by norm_num, Int.ceil_sub_int]
            have hle : w ≤ (⌈w⌉ : ℚ) := Int.le_ceil w
            have h4 : (1:ℤ) ≤ ⌈w⌉ := by exact_mod_cast le_trans h1 hle
            omega
          have hstep : fitLoop isObs st epv oh repeats w =
              fitLoop isObs st epv oh repeats (w - 1) := by
            conv_lhs => unfold fitLoop
            rw [dif_pos h1]
            simp [hobs]
          rcases ih (w - 1) hmeas with ⟨k, hk1, hk2, hk3, hk4⟩ | ⟨hz1, hz2⟩
          · left
            refine ⟨k + 1, ?_, ?_, ?_, ?_⟩
            · rw [cast_succ_shift]
              exact hk1
            · rw [cast_succ_shift]
              exact hk2
            · rw [hstep, hk3, cast_succ_shift]
            · intro j hj
              match j with
              | 0 =>
                simpa using hobs
              | Nat.succ j' =>
                rw [cast_succ_shift]
                exact hk4 j' (by omega)
          · right
            constructor
            · rw [hstep, hz1]
            · intro j hj
              match j with
              | 0 =>
                simpa using hobs
              | Nat.succ j' =>
                rw [cast_succ_shift]
                rw [cast_succ_shift] at hj
                exact hz2 j' hj
      · right
        constructor
        · unfold fitLoop
          rw [dif_neg h1]
        · intro j hj
          exfalso
          have hj0 : (0:ℚ) ≤ (j:ℚ) := Nat.cast_nonneg j
          push_neg at h1
          linarith
  exact main (⌈v⌉).toNat v le_rfl

/-- Unfolding of `willItFitWeight` with the source's local variables
(`exptime`, `repeats`, `expPerVisit`, `possVisits`) substituted. -/
theorem willItFitWeight_eq (isObs : ℚ → Bool)
    (mt st exptimeMin nexp overhead repeatsFld doneVisit : ℚ) :
    willItFitWeight isObs mt st exptimeMin nexp overhead repeatsFld doneVisit =
      if isObs st = false then ⟨0, st, 0⟩
      else if ((⌊(mt - st - overhead) / (exptimeMin * 60 * nexp)⌋ : ℤ) : ℚ) >
          repeatsFld - doneVisit then
        if isObs (st + (exptimeMin * 60 * nexp * (repeatsFld - doneVisit) + overhead)) then
          ⟨1, st + (exptimeMin * 60 * nexp * (repeatsFld - doneVisit) + overhead),
            repeatsFld - doneVisit⟩
        else
          fitLoop isObs st (exptimeMin * 60 * nexp) overhead (repeatsFld - doneVisit)
            (repeatsFld - doneVisit)
      else
        fitLoop isObs st (exptimeMin * 60 * nexp) overhead (repeatsFld - doneVisit)
          ((⌊(mt - st - overhead) / (exptimeMin * 60 * nexp)⌋ : ℤ) : ℚ) := by
  unfold willItFitWeight
  rfl

/-- When the target is observable at the start, `willItFitWeight` either
returns a visit count `n` between 1 and `min possVisits repeats` that is
observable at its projected end and maximal among the tested counts, with
weight `n / repeats`, or it returns the bad-weight result because every
tested count fails at its projected end. -/
theorem willItFitWeight_spec (isObs : ℚ → Bool)
    (mt st exptimeMin nexp overhead repeatsFld doneVisit : ℚ)
    (hobs : isObs st = true) (hrep1 : 1 ≤ repeatsFld - doneVisit) :
    (∃ n : ℚ,
      willItFitWeight isObs mt st exptimeMin nexp overhead repeatsFld doneVisit =
        ⟨n / (repeatsFld - doneVisit), st + (exptimeMin * 60 * nexp * n + overhead), n⟩ ∧
      1 ≤ n ∧
      n ≤ min ((⌊(mt - st - overhead) / (exptimeMin * 60 * nexp)⌋ : ℤ) : ℚ)
          (repeatsFld - doneVisit) ∧
      isObs (st + (exptimeMin * 60 * nexp * n + overhead)) = true ∧
      (∀ j : ℕ,
        1 ≤ min ((⌊(mt - st - overhead) / (exptimeMin * 60 * nexp)⌋ : ℤ) : ℚ)
            (repeatsFld - doneVisit) - j →
        n < min ((⌊(mt - st - overhead) / (exptimeMin * 60 * nexp)⌋ : ℤ) : ℚ)
            (repeatsFld - doneVisit) - j →
        isObs (st + (exptimeMin * 60 * nexp *
          (min ((⌊(mt - st - overhead) / (exptimeMin * 60 * nexp)⌋ : ℤ) : ℚ)
            (repeatsFld - doneVisit) - j) + overhead)) = false)) ∨
    (willItFitWeight isObs mt st exptimeMin nexp overhead repeatsFld doneVisit = ⟨0, st, 0⟩ ∧
      ∀ j : ℕ,
        1 ≤ min ((⌊(mt - st - overhead) / (exptimeMin * 60 * nexp)⌋ : ℤ) : ℚ)
            (repeatsFld - doneVisit) - j →
        isObs (st + (exptimeMin * 60 * nexp *
          (min ((⌊(mt - st - overhead) / (exptimeMin * 60 * nexp)⌋ : ℤ) : ℚ)
            (repeatsFld - doneVisit) - j) + overhead)) = false) := by
  have hres0 := willItFitWeight_eq isObs mt st exptimeMin nexp overhead repeatsFld doneVisit
  rw [if_neg (by simp [hobs])] at hres0
  rcases lt_or_ge (repeatsFld - doneVisit)
      ((⌊(mt - st - overhead) / (exptimeMin * 60 * nexp)⌋ : ℤ) : ℚ) with hposs | hposs
  · rw [if_pos hposs] at hres0
    have hcap : min ((⌊(mt - st - overhead) / (exptimeMin * 60 * nexp)⌋ : ℤ) : ℚ)
        (repeatsFld - doneVisit) = repeatsFld - doneVisit := min_eq_right (le_of_lt hposs)
    cases hend : isObs (st + (exptimeMin * 60 * nexp * (repeatsFld - doneVisit) + overhead)) with
    | true =>
      rw [if_pos hend] at hres0
      left
      refine ⟨repeatsFld - doneVisit, ?_, hrep1, ?_, hend, ?_⟩
      · rw [hres0]
        have hne : repeatsFld - doneVisit ≠ 0 := by linarith
        rw [div_self hne]
      · rw [hcap]
      · intro j _ h2
        exfalso
        rw [hcap] at h2
        have hj0 : (0:ℚ) ≤ (j:ℚ) := Nat.cast_nonneg j
        linarith
    | false =>
      rw [if_neg (by simp [hend])] at hres0
      rcases fitLoop_spec isObs st (exptimeMin * 60 * nexp) overhead (repeatsFld - doneVisit)
          (repeatsFld - doneVisit) with ⟨k, hk1, hk2, hk3, hk4⟩ | ⟨hz1, hz2⟩
      · left
        refine ⟨repeatsFld - doneVisit - k, ?_, hk1, ?_, hk2, ?_⟩
        · rw [hres0, hk3]
        · rw [hcap]
          have hk0 : (0:ℚ) ≤ (k:ℚ) := Nat.cast_nonneg k
          linarith
        · intro j h1 h2
          rw [hcap] at h2
          have hjk : (j:ℚ) < (k:ℚ) := by linarith
          rw [hcap]
          exact hk4 j (by exact_mod_cast hjk)
      · right
        constructor
        · rw [hres0, hz1]
        · intro j h1
          rw [hcap] at h1 ⊢
          exact hz2 j h1
  · rw [if_neg (not_lt.mpr hposs)] at hres0
    have hcap : min ((⌊(mt - st - overhead) / (exptimeMin * 60 * nexp)⌋ : ℤ) : ℚ)
        (repeatsFld - doneVisit) =
        ((⌊(mt - st - overhead) / (exptimeMin * 60 * nexp)⌋ : ℤ) : ℚ) := min_eq_left hposs
    rcases fitLoop_spec isObs st (exptimeMin * 60 * nexp) overhead (repeatsFld - doneVisit)
        ((⌊(mt - st - overhead) / (exptimeMin * 60 * nexp)⌋ : ℤ) : ℚ) with
      ⟨k, hk1, hk2, hk3, hk4⟩ | ⟨hz1, hz2⟩
    · left
      refine ⟨((⌊(mt - st - overhead) / (exptimeMin * 60 * nexp)⌋ : ℤ) : ℚ) - k,
          ?_, hk1, ?_, hk2, ?_⟩
      · rw [hres0, hk3]
      · rw [hcap]
        have hk0 : (0:ℚ) ≤ (k:ℚ) := Nat.cast_nonneg k
        linarith
      · intro j h1 h2
        rw [hcap] at h2
        have hjk : (j:ℚ) < (k:ℚ) := by linarith
        rw [hcap]
        exact hk4 j (by exact_mod_cast hjk)
    · right
      constructor
      · rw [hres0, hz1]
      · intro j h1
        rw [hcap] at h1 ⊢
        exact hz2 j h1

/-- Bounds for the decrement loop's returned visit count. -/
theorem fitLoop_nVisits_bounds (isObs : ℚ → Bool) (st epv oh repeats v : ℚ) :
    0 ≤ (fitLoop isObs st epv oh repeats v).nVisits ∧
    (fitLoop isObs st epv oh repeats v).nVisits ≤ max v 0 := by
  rcases fitLoop_spec isObs st epv oh repeats v with ⟨k, hk1, _, hk3, _⟩ | ⟨hz1, _⟩
  · rw [hk3]
    have hk0 : (0:ℚ) ≤ (k:ℚ) := Nat.cast_nonneg k
    constructor
    · show (0:ℚ) ≤ v - k
      linarith
    · show v - (k:ℚ) ≤ max v 0
      exact le_trans (by linarith) (le_max_left v 0)
  · rw [hz1]
    exact ⟨le_refl 0, le_max_right v 0⟩

/-- The fit computation never projects more visits than remain:
`0 ≤ nVisits ≤ repeatsFld - doneVisit` whenever the remaining count is
non-negative. -/
theorem willItFitWeight_nVisits_bounds (isObs : ℚ → Bool)
    (mt st exptimeMin nexp overhead repeatsFld doneVisit : ℚ)
    (h0 : 0 ≤ repeatsFld - doneVisit) :
    0 ≤ (willItFitWeight isObs mt st exptimeMin nexp overhead repeatsFld doneVisit).nVisits ∧
    (willItFitWeight isObs mt st exptimeMin nexp overhead repeatsFld doneVisit).nVisits ≤
      repeatsFld - doneVisit := by
  have hres0 := willItFitWeight_eq isObs mt st exptimeMin nexp overhead repeatsFld doneVisit
  by_cases hobs : isObs st = false
  · rw [if_pos hobs] at hres0
    rw [hres0]
    exact ⟨le_refl 0, h0⟩
  · rw [if_neg hobs] at hres0
    rcases lt_or_ge (repeatsFld - doneVisit)
        ((⌊(mt - st - overhead) / (exptimeMin * 60 * nexp)⌋ : ℤ) : ℚ) with hposs | hposs
    · rw [if_pos hposs] at hres0
      cases hend : isObs (st + (exptimeMin * 60 * nexp * (repeatsFld - doneVisit) + overhead)) with
      | true =>
        rw [if_pos hend] at hres0
        rw [hres0]
        exact ⟨h0, le_refl _⟩
      | false =>
        rw [if_neg (by simp [hend])] at hres0
        rw [hres0]
        have hb := fitLoop_nVisits_bounds isObs st (exptimeMin * 60 * nexp) overhead
          (repeatsFld - doneVisit) (repeatsFld - doneVisit)
        refine ⟨hb.1, le_trans hb.2 ?_⟩
        exact max_le (le_refl _) h0
    · rw [if_neg (not_lt.mpr hposs)] at hres0
      rw [hres0]
      have hb := fitLoop_nVisits_bounds isObs st (exptimeMin * 60 * nexp) overhead
        (repeatsFld - doneVisit) ((⌊(mt - st - overhead) / (exptimeMin * 60 * nexp)⌋ : ℤ) : ℚ)
      refine ⟨hb.1, le_trans hb.2 ?_⟩
      exact max_le hposs h0

/-! ### Claim C3 -/

/-- Claim C3 counterexample: a request with 4 requested visits, 2 already
done, always observable, with a huge night.  The code fits the 2 remaining
visits and returns `fitWeight = 1` (= visits / *remaining*), while the claim
(visits divided by the *requested* count) demands 2/4. -/
theorem willItFitWeight_claim_counterexample :
    willItFitWeight (fun _ => true) 100000 0 10 1 120 4 2 = ⟨1, 1320, 2⟩ ∧
    ¬ ((2:ℚ) / 4 = 1) := by
  constructor
  · have hfloor : ⌊((100000:ℚ) - 0 - 120) / (10 * 60 * 1)⌋ = (166:ℤ) := by
      norm_num
    rw [willItFitWeight_eq, hfloor]
    norm_num
  · norm_num

/-- Claim C3 (amended): `willItFitWeight` returns `fitWeight` equal to the
returned visit count divided by the *remaining* visit count
(`repeats - doneVisit`), where the returned visit count is bounded by the
remaining count, fits before morning twilight, is observable at its
projected end, and is maximal among the tested candidate counts; it returns
`(0, startTime, 0)` whenever the target is not observable at the start
time. -/
theorem willItFitWeight_fraction_amended (isObs : ℚ → Bool)
    (mt st exptimeMin nexp overhead repeatsFld doneVisit : ℚ)
    (hrep : 1 ≤ repeatsFld - doneVisit)
    (hexp : 0 < exptimeMin * 60 * nexp) :
    (isObs st = false →
      willItFitWeight isObs mt st exptimeMin nexp overhead repeatsFld doneVisit =
        ⟨0, st, 0⟩) ∧
    (isObs st = true →
      (willItFitWeight isObs mt st exptimeMin nexp overhead repeatsFld doneVisit).fitWeight =
        (willItFitWeight isObs mt st exptimeMin nexp overhead repeatsFld doneVisit).nVisits /
          (repeatsFld - doneVisit) ∧
      0 ≤ (willItFitWeight isObs mt st exptimeMin nexp overhead repeatsFld doneVisit).nVisits ∧
      (willItFitWeight isObs mt st exptimeMin nexp overhead repeatsFld doneVisit).nVisits ≤
        repeatsFld - doneVisit ∧
      ((willItFitWeight isObs mt st exptimeMin nexp overhead repeatsFld doneVisit).nVisits = 0 →
        willItFitWeight isObs mt st exptimeMin nexp overhead repeatsFld doneVisit =
          ⟨0, st, 0⟩) ∧
      (1 ≤ (willItFitWeight isObs mt st exptimeMin nexp overhead repeatsFld doneVisit).nVisits →
        (willItFitWeight isObs mt st exptimeMin nexp overhead repeatsFld doneVisit).endTime =
          st + (exptimeMin * 60 * nexp *
            (willItFitWeight isObs mt st exptimeMin nexp overhead repeatsFld doneVisit).nVisits +
            overhead) ∧
        isObs (willItFitWeight isObs mt st exptimeMin nexp overhead
          repeatsFld doneVisit).endTime = true ∧
        (willItFitWeight isObs mt st exptimeMin nexp overhead repeatsFld doneVisit).endTime ≤
          mt) ∧
      (∀ j : ℕ,
        1 ≤ min ((⌊(mt - st - overhead) / (exptimeMin * 60 * nexp)⌋ : ℤ) : ℚ)
            (repeatsFld - doneVisit) - j →
        (willItFitWeight isObs mt st exptimeMin nexp overhead repeatsFld doneVisit).nVisits <
          min ((⌊(mt - st - overhead) / (exptimeMin * 60 * nexp)⌋ : ℤ) : ℚ)
            (repeatsFld - doneVisit) - j →
        isObs (st + (exptimeMin * 60 * nexp *
          (min ((⌊(mt - st - overhead) / (exptimeMin * 60 * nexp)⌋ : ℤ) : ℚ)
            (repeatsFld - doneVisit) - j) + overhead)) = false)) := by
  constructor
  · intro h
    rw [willItFitWeight_eq, if_pos h]
  · intro hobs
    have hple : ((⌊(mt - st - overhead) / (exptimeMin * 60 * nexp)⌋ : ℤ) : ℚ) ≤
        (mt - st - overhead) / (exptimeMin * 60 * nexp) :=
      Int.floor_le ((mt - st - overhead) / (exptimeMin * 60 * nexp))
    rcases willItFitWeight_spec isObs mt st exptimeMin nexp overhead repeatsFld doneVisit
        hobs hrep with ⟨n, heq, hn1, hncap, hnobs, hmax⟩ | ⟨heq, hmax⟩
    · rw [heq]
      have hnposs : n ≤ (mt - st - overhead) / (exptimeMin * 60 * nexp) :=
        le_trans (le_trans hncap (min_le_left _ _)) hple
      have hnmul : exptimeMin * 60 * nexp * n ≤ mt - st - overhead := by
        have := (le_div_iff₀ hexp).mp hnposs
        linarith
      refine ⟨rfl, ?_, ?_, ?_, ?_, ?_⟩
      · show (0:ℚ) ≤ n
        linarith
      · show n ≤ repeatsFld - doneVisit
        exact le_trans hncap (min_le_right _ _)
      · intro h0
        exfalso
        have h0' : n = 0 := h0
        rw [h0'] at hn1
        norm_num at hn1
      · intro _
        refine ⟨rfl, hnobs, ?_⟩
        show st + (exptimeMin * 60 * nexp * n + overhead) ≤ mt
        linarith
      · intro j h1 h2
        exact hmax j h1 h2
    · rw [heq]
      refine ⟨?_, ?_, ?_, fun _ => rfl, ?_, ?_⟩
      · show (0:ℚ) = 0 / (repeatsFld - doneVisit)
        rw [zero_div]
      · show (0:ℚ) ≤ 0
        exact le_refl 0
      · show (0:ℚ) ≤ repeatsFld - doneVisit
        linarith
      · intro hcon
        have hcon' : (1:ℚ) ≤ 0 := hcon
        norm_num at hcon'
      · intro j h1 _
        exact hmax j h1

/-- Claim C3 witness: always-observable target, 4 requested visits, 2 done;
the fit weight equals the returned visit count over the remaining 2. -/
theorem willItFitWeight_fraction_amended_witness :
    (willItFitWeight (fun _ => true) 100000 0 10 1 120 4 2).fitWeight =
      (willItFitWeight (fun _ => true) 100000 0 10 1 120 4 2).nVisits / (4 - 2) :=
  ((willItFitWeight_fraction_amended (fun _ => true) 100000 0 10 1 120 4 2
      (by norm_num) (by norm_num)).2 rfl).1

/-! ### Completion state (queueTools.createBlankDoneMask, one row per request) -/

/-- One row of the `donePar` DataFrame. -/
structure DoneRow where
  objid : String
  PI : String
  doneVisit : ℚ
  doneTime : ℚ
  totalTime : ℚ
  complete : ℤ
  prevWeight : ℚ
  currentWeight : ℚ
deriving DecidableEq

/-- Default row used to totalise positional row access (its `complete` is 0,
so out-of-range accesses never pretend to be complete). -/
def dummyRow : DoneRow :=
  { objid := "", PI := "", doneVisit := 0, doneTime := 0, totalTime := 0,
    complete := 0, prevWeight := 0, currentWeight := 0 }

/-- Python's `int()` truncation toward zero on a float/rational value. -/
def pyInt (q : ℚ) : ℤ := if q < 0 then ⌈q⌉ else ⌊q⌋

theorem pyInt_intCast (z : ℤ) : pyInt (z : ℚ) = z := by
  unfold pyInt
  split_ifs with h
  · exact Int.ceil_intCast z
  · exact Int.floor_intCast z

/-- `createBlankDoneMask`: one blank row per observation, `totalTime` from
the allocated-time table when the PI is present, else the 0.01 NaN guard;
`prevWeight` starts at 1.0, everything else at zero. -/
def createBlankDoneMask (obs : List (String × String)) (allocatedTime : String → Option ℚ) :
    List DoneRow :=
  obs.map fun p =>
    { objid := p.1, PI := p.2, doneVisit := 0, doneTime := 0,
      totalTime := (allocatedTime p.2).getD 0.01,
      complete := 0, prevWeight := 1, currentWeight := 0 }

/-! ### The Advancing commit (MMTQueue.obsUpdateRow, lines 403-425) -/

/-- First Advancing stage (source lines 410-415): rows sharing the winner's
PI get `doneTime += diffTime/3600` and `currentWeight = doneTime/totalTime`. -/
def advanceRowPI (pi : String) (diffTime : ℚ) (r : DoneRow) : DoneRow :=
  if r.PI = pi then
    { r with doneTime := r.doneTime + diffTime / 3600,
             currentWeight := (r.doneTime + diffTime / 3600) / r.totalTime }
  else r

/-- Second Advancing stage (source lines 417-418): the winner row gets
`doneVisit += nVisits`. -/
def advanceRowVisit (winner : String) (nVisits : ℚ) (r : DoneRow) : DoneRow :=
  if r.objid = winner then { r with doneVisit := r.doneVisit + nVisits } else r

/-- Third Advancing stage (source lines 420-424): the winner row is marked
complete when the (int-truncated) updated visit count reaches the requested
count. -/
def advanceRowComplete (winner : String) (requested : ℤ) (r : DoneRow) : DoneRow :=
  if r.objid = winner ∧ requested ≤ pyInt r.doneVisit then { r with complete := 1 } else r

/-- Per-row effect of committing a winner: the three stages in source
order. -/
def advanceRow (pi winner : String) (diffTime nVisits : ℚ) (requested : ℤ)
    (r : DoneRow) : DoneRow :=
  advanceRowComplete winner requested
    (advanceRowVisit winner nVisits (advanceRowPI pi diffTime r))

theorem advanceRowPI_objid (pi : String) (d : ℚ) (r : DoneRow) :
    (advanceRowPI pi d r).objid = r.objid := by
  unfold advanceRowPI
  split_ifs <;> rfl

theorem advanceRowPI_doneVisit (pi : String) (d : ℚ) (r : DoneRow) :
    (advanceRowPI pi d r).doneVisit = r.doneVisit := by
  unfold advanceRowPI
  split_ifs <;> rfl

theorem advanceRowPI_complete (pi : String) (d : ℚ) (r : DoneRow) :
    (advanceRowPI pi d r).complete = r.complete := by
  unfold advanceRowPI
  split_ifs <;> rfl

theorem advanceRowVisit_objid (winner : String) (n : ℚ) (r : DoneRow) :
    (advanceRowVisit winner n r).objid = r.objid := by
  unfold advanceRowVisit
  split_ifs <;> rfl

theorem advanceRowVisit_complete (winner : String) (n : ℚ) (r : DoneRow) :
    (advanceRowVisit winner n r).complete = r.complete := by
  unfold advanceRowVisit
  split_ifs <;> rfl

theorem advanceRowVisit_doneVisit (winner : String) (n : ℚ) (r : DoneRow) :
    (advanceRowVisit winner n r).doneVisit =
      (if r.objid = winner then r.doneVisit + n else r.doneVisit) := by
  unfold advanceRowVisit
  split_ifs <;> rfl

theorem advanceRowComplete_doneVisit (winner : String) (req : ℤ) (r : DoneRow) :
    (advanceRowComplete winner req r).doneVisit = r.doneVisit := by
  unfold advanceRowComplete
  split_ifs <;> rfl

theorem advanceRowComplete_complete (winner : String) (req : ℤ) (r : DoneRow) :
    (advanceRowComplete winner req r).complete =
      (if r.objid = winner ∧ req ≤ pyInt r.doneVisit then 1 else r.complete) := by
  unfold advanceRowComplete
  split_ifs <;> rfl

/-- The full donePar mutation of an Advancing transition: the winner's PI is
looked up, then every row is updated by `advanceRow`. -/
def advanceUpdate (rows : List DoneRow) (winner : String) (diffTime nVisits : ℚ)
    (requested : ℤ) : List DoneRow :=
  let pi := ((rows.find? fun r => r.objid == winner).map fun r => r.PI).getD ""
  rows.map (advanceRow pi winner diffTime nVisits requested)

theorem getD_map_of_lt (f : DoneRow → DoneRow) (l : List DoneRow) (i : ℕ)
    (h : i < l.length) : (l.map f).getD i dummyRow = f (l.getD i dummyRow) := by
  rw [List.getD_eq_getElem?_getD, List.getElem?_map, List.getElem?_eq_getElem h,
    List.getD_eq_getElem?_getD, List.getElem?_eq_getElem h]
  rfl

theorem advanceRowComplete_objid (winner : String) (req : ℤ) (r : DoneRow) :
    (advanceRowComplete winner req r).objid = r.objid := by
  unfold advanceRowComplete
  split_ifs <;> rfl

theorem advanceRow_objid (pi winner : String) (d n : ℚ) (req : ℤ) (r : DoneRow) :
    (advanceRow pi winner d n req r).objid = r.objid := by
  unfold advanceRow
  rw [advanceRowComplete_objid, advanceRowVisit_objid, advanceRowPI_objid]

theorem advanceRow_complete_winner (pi winner : String) (d n : ℚ) (req : ℤ) (r : DoneRow)
    (hobj : r.objid = winner) :
    (advanceRow pi winner d n req r).complete =
      (if req ≤ pyInt (r.doneVisit + n) then 1 else r.complete) := by
  unfold advanceRow
  rw [advanceRowComplete_complete, advanceRowVisit_objid, advanceRowPI_objid, hobj,
    advanceRowVisit_doneVisit, advanceRowPI_objid, hobj, if_pos rfl, advanceRowPI_doneVisit,
    advanceRowVisit_complete, advanceRowPI_complete]
  simp

theorem advanceRow_complete_mono (pi winner : String) (d n : ℚ) (req : ℤ) (r : DoneRow)
    (h : r.complete = 1) : (advanceRow pi winner d n req r).complete = 1 := by
  unfold advanceRow
  rw [advanceRowComplete_complete, advanceRowVisit_complete, advanceRowPI_complete, h]
  split_ifs <;> rfl

theorem advanceRow_doneVisit_winner (pi winner : String) (d n : ℚ) (req : ℤ) (r : DoneRow)
    (hobj : r.objid = winner) :
    (advanceRow pi winner d n req r).doneVisit = r.doneVisit + n := by
  unfold advanceRow
  rw [advanceRowComplete_doneVisit, advanceRowVisit_doneVisit, advanceRowPI_objid, hobj,
    if_pos rfl, advanceRowPI_doneVisit]

theorem advanceRow_doneVisit_other (pi winner : String) (d n : ℚ) (req : ℤ) (r : DoneRow)
    (hobj : r.objid ≠ winner) :
    (advanceRow pi winner d n req r).doneVisit = r.doneVisit := by
  unfold advanceRow
  rw [advanceRowComplete_doneVisit, advanceRowVisit_doneVisit, advanceRowPI_objid,
    if_neg hobj, advanceRowPI_doneVisit]

/-! ### Claim C5 -/

/-- Claim C5: after an Advancing commit, the winning request (whose
`complete` flag was not already 1, since complete requests are skipped)
has `complete = 1` exactly when its updated `doneVisit` reaches the
requested visit count; and no row's `complete` flag ever drops from 1. -/
theorem advanceUpdate_complete_invariant
    (rows : List DoneRow) (winner : String) (d n : ℚ) (req dv nz : ℤ) (i : ℕ)
    (hi : i < rows.length)
    (hobj : (rows.getD i dummyRow).objid = winner)
    (hcomp : (rows.getD i dummyRow).complete ≠ 1)
    (hdv : (rows.getD i dummyRow).doneVisit = (dv : ℚ))
    (hnz : n = (nz : ℚ)) :
    (((advanceUpdate rows winner d n req).getD i dummyRow).complete = 1 ↔ req ≤ dv + nz) ∧
    (∀ j : ℕ, (rows.getD j dummyRow).complete = 1 →
      ((advanceUpdate rows winner d n req).getD j dummyRow).complete = 1) := by
  constructor
  · rw [show advanceUpdate rows winner d n req =
        rows.map (advanceRow (((rows.find? fun r => r.objid == winner).map
          fun r => r.PI).getD "") winner d n req) from rfl]
    rw [getD_map_of_lt _ _ _ hi]
    rw [advanceRow_complete_winner _ _ _ _ _ _ hobj]
    rw [hdv, hnz]
    rw [show (dv:ℚ) + (nz:ℚ) = ((dv + nz : ℤ) : ℚ) by push_cast; ring]
    rw [pyInt_intCast]
    split_ifs with h
    · simp [h]
    · exact iff_of_false hcomp h
  · intro j hj
    by_cases hjl : j < rows.length
    · rw [show advanceUpdate rows winner d n req =
          rows.map (advanceRow (((rows.find? fun r => r.objid == winner).map
            fun r => r.PI).getD "") winner d n req) from rfl]
      rw [getD_map_of_lt _ _ _ hjl]
      exact advanceRow_complete_mono _ _ _ _ _ _ hj
    · exfalso
      rw [List.getD_eq_getElem?_getD, List.getElem?_eq_none (by omega)] at hj
      simp [dummyRow] at hj

/-- Claim C5 witness: a one-row table whose request needs 2 visits, has 1
done, and receives 1 more. -/
theorem advanceUpdate_complete_invariant_witness :
    ((advanceUpdate
        [{ objid := "A", PI := "P", doneVisit := 1, doneTime := 0, totalTime := 1,
           complete := 0, prevWeight := 1, currentWeight := 0 }] "A" 0 1 2).getD 0
        dummyRow).complete = 1 ↔ (2:ℤ) ≤ 1 + 1 :=
  (advanceUpdate_complete_invariant
    [{ objid := "A", PI := "P", doneVisit := 1, doneTime := 0, totalTime := 1,
       complete := 0, prevWeight := 1, currentWeight := 0 }] "A" 0 1 2 1 1 0
    (by norm_num) (by rfl) (by norm_num) (by norm_num) (by norm_num)).1

theorem advanceUpdate_eq_map (rows : List DoneRow) (winner : String) (d n : ℚ) (req : ℤ) :
    advanceUpdate rows winner d n req =
      rows.map (advanceRow (((rows.find? fun r => r.objid == winner).map
        fun r => r.PI).getD "") winner d n req) := rfl

/-! ### Claim C6 -/

/-- Claim C6: the fit computation never projects more visits than remain
(`0 ≤ nVisits ≤ repeatsFld - doneVisit`), and the Advancing commit
increments the winner's `visitsDone` only by that projected count, so a
winner satisfying `doneVisit ≤ repeatsFld` before the commit still
satisfies it afterwards; all other rows' visit counts are untouched. -/
theorem visitsDone_never_exceeds
    (isObs : ℚ → Bool) (mt st exptimeMin nexp overhead repeatsFld doneVisit : ℚ)
    (rows : List DoneRow) (winner : String) (d : ℚ) (req : ℤ) (i : ℕ)
    (h0 : doneVisit ≤ repeatsFld)
    (hi : i < rows.length)
    (hobj : (rows.getD i dummyRow).objid = winner)
    (hdv : (rows.getD i dummyRow).doneVisit = doneVisit) :
    (0 ≤ (willItFitWeight isObs mt st exptimeMin nexp overhead repeatsFld doneVisit).nVisits ∧
      (willItFitWeight isObs mt st exptimeMin nexp overhead repeatsFld doneVisit).nVisits ≤
        repeatsFld - doneVisit) ∧
    ((advanceUpdate rows winner d
        (willItFitWeight isObs mt st exptimeMin nexp overhead repeatsFld doneVisit).nVisits
        req).getD i dummyRow).doneVisit ≤ repeatsFld ∧
    (∀ j : ℕ, (rows.getD j dummyRow).objid ≠ winner →
      ((advanceUpdate rows winner d
          (willItFitWeight isObs mt st exptimeMin nexp overhead repeatsFld doneVisit).nVisits
          req).getD j dummyRow).doneVisit = (rows.getD j dummyRow).doneVisit) := by
  have hb := willItFitWeight_nVisits_bounds isObs mt st exptimeMin nexp overhead
    repeatsFld doneVisit (by linarith)
  refine ⟨hb, ?_, ?_⟩
  · rw [advanceUpdate_eq_map, getD_map_of_lt _ _ _ hi,
      advanceRow_doneVisit_winner _ _ _ _ _ _ hobj, hdv]
    linarith [hb.2]
  · intro j hj
    by_cases hjl : j < rows.length
    · rw [advanceUpdate_eq_map, getD_map_of_lt _ _ _ hjl,
        advanceRow_doneVisit_other _ _ _ _ _ _ hj]
    · have hlen : ∀ m : ℚ, (advanceUpdate rows winner d m req).length = rows.length := by
        intro m
        rw [advanceUpdate_eq_map]
        exact List.length_map _ _
      rw [List.getD_eq_getElem?_getD, List.getElem?_eq_none (by rw [hlen]; omega),
        List.getD_eq_getElem?_getD, List.getElem?_eq_none (by omega)]

/-- Claim C6 witness: 4 requested visits, 2 done, 2 more committed. -/
theorem visitsDone_never_exceeds_witness :
    ((advanceUpdate
        [{ objid := "A", PI := "P", doneVisit := 2, doneTime := 0, totalTime := 1,
           complete := 0, prevWeight := 1, currentWeight := 0 }] "A" 0
        (willItFitWeight (fun _ => true) 100000 0 10 1 120 4 2).nVisits 4).getD 0
        dummyRow).doneVisit ≤ 4 :=
  (visitsDone_never_exceeds (fun _ => true) 100000 0 10 1 120 4 2
    [{ objid := "A", PI := "P", doneVisit := 2, doneTime := 0, totalTime := 1,
       complete := 0, prevWeight := 1, currentWeight := 0 }] "A" 0 4 0
    (by norm_num) (by norm_num) (by rfl) (by rfl)).2.1

/-! ### Done-ledger loading (MMTQueue.main, lines 472-493) -/

/-- One parsed line of `donefile.dat`: request id, program id, cumulative
visits, cumulative hours, completion flag. -/
structure LedgerLine where
  id : String
  pi : String
  visits : ℚ
  donetime : ℚ
  completed : ℤ
deriving DecidableEq

/-- The source's unknown-id guard is
`if max(donePar['objid'] == id) is "False":` — a Python `is` identity
comparison between a boolean and the *string* `"False"`, which is false for
every boolean operand.  This function models that test: it ignores its
argument (whether any row matches) and returns `false`. -/
def pyIsStringFalse (_anyMatch : Bool) : Bool := false

/-- Processing of a single ledger line: the (never-firing) unknown-id
guard, the duplicate guard (`donePar.loc[objid == id, 'doneVisit'].max() > 0`,
where the max of an empty selection is NaN and `NaN > 0` is false), then
the three assignments: `doneVisit = visits` on id-matching rows,
`doneTime += donetime` on PI-matching rows, `complete = completed` on
id-matching rows. -/
def processLedgerLine (donePar : List DoneRow) (ln : LedgerLine) :
    Except String (List DoneRow) :=
  if pyIsStringFalse (donePar.any fun r => r.objid == ln.id) then
    Except.error ("No Match found for " ++ ln.id)
  else if (donePar.filter fun r => r.objid == ln.id).any (fun r => r.doneVisit > 0) then
    Except.error ("Field " ++ ln.id ++ " is listed multiple times in donefile")
  else
    Except.ok <| donePar.map fun r =>
      let r1 := if r.objid == ln.id then { r with doneVisit := ln.visits } else r
      let r2 := if r1.PI == ln.pi then { r1 with doneTime := r1.doneTime + ln.donetime } else r1
      if r2.objid == ln.id then { r2 with complete := ln.completed } else r2

/-- The whole donefile loop: process lines in order, aborting on the first
error. -/
def processDonefile (donePar : List DoneRow) : List LedgerLine → Except String (List DoneRow)
  | [] => Except.ok donePar
  | ln :: rest =>
    match processLedgerLine donePar ln with
    | Except.error e => Except.error e
    | Except.ok d => processDonefile d rest

/-! ### Claim C4 -/

/-- Claim C4 (code bug): a ledger line whose id `"B"` matches no known
request does *not* raise — the unknown-id guard compares a boolean to the
string `"False"` with `is`, which never holds — and the line is silently
ignored, leaving the table unchanged. -/
theorem processDonefile_unknown_id_no_error :
    processDonefile
      [{ objid := "A", PI := "P", doneVisit := 0, doneTime := 0, totalTime := 1,
         complete := 0, prevWeight := 1, currentWeight := 0 }]
      [{ id := "B", pi := "Q", visits := 3, donetime := 2, completed := 1 }] =
    Except.ok
      [{ objid := "A", PI := "P", doneVisit := 0, doneTime := 0, totalTime := 1,
         complete := 0, prevWeight := 1, currentWeight := 0 }] := rfl

/-! ### End-of-pass rebalancing (MMTQueue.main, lines 520-547) -/

/-- Whether every request of program `pi` is complete
(`min(donePar[donePar['PI'] == PI]['complete'].values) == 1` in the source,
with 0/1 complete flags and at least one row per queried program). -/
def allDonePI (rows : List DoneRow) (pi : String) : Bool :=
  rows.all fun r => (!(r.PI == pi)) || (r.complete == 1)

/-- The end-of-pass construction of `newDone`: `complete`, `doneTime`,
`doneVisit` reset to the campaign baseline, `prevWeight` set to this pass's
`currentWeight * (1 - weightMod * 0.9)` where `weightMod = 1` iff the row's
program was fully served this pass, and `currentWeight` zeroed. -/
def endOfPassUpdate (donePar baseline : List DoneRow) : List DoneRow :=
  (donePar.zip baseline).map fun rb =>
    let weightMod : ℚ := if allDonePI donePar rb.1.PI then 1 else 0
    { rb.1 with
      complete := rb.2.complete, doneTime := rb.2.doneTime, doneVisit := rb.2.doneVisit,
      prevWeight := rb.1.currentWeight * (1 - weightMod * 0.9),
      currentWeight := 0 }

/-! ### Claim C7 -/

/-- Claim C7: at the end of a pass, a row whose `currentWeight` equals its
program's usage ratio (`doneTime / totalTime`, the invariant the Advancing
step maintains) gets next pass's `dampingWeight` (`prevWeight`) equal to
that usage ratio times 0.1 when its program was fully served this pass and
times 1 otherwise, while its counters are reset to the baseline. -/
theorem endOfPassUpdate_damping
    (donePar baseline : List DoneRow) (r b : DoneRow)
    (hmem : (r, b) ∈ donePar.zip baseline)
    (hcw : r.currentWeight = r.doneTime / r.totalTime) :
    ({ r with
        complete := b.complete, doneTime := b.doneTime, doneVisit := b.doneVisit,
        prevWeight := r.doneTime / r.totalTime *
          (if allDonePI donePar r.PI then 0.1 else 1),
        currentWeight := 0 } : DoneRow) ∈ endOfPassUpdate donePar baseline := by
  have h := List.mem_map_of_mem (f := fun rb : DoneRow × DoneRow =>
    let weightMod : ℚ := if allDonePI donePar rb.1.PI then 1 else 0
    { rb.1 with
      complete := rb.2.complete, doneTime := rb.2.doneTime, doneVisit := rb.2.doneVisit,
      prevWeight := rb.1.currentWeight * (1 - weightMod * 0.9),
      currentWeight := 0 }) hmem
  have heq : ({ r with
      complete := b.complete, doneTime := b.doneTime, doneVisit := b.doneVisit,
      prevWeight := r.doneTime / r.totalTime *
        (if allDonePI donePar r.PI then 0.1 else 1),
      currentWeight := 0 } : DoneRow) =
      (let weightMod : ℚ := if allDonePI donePar r.PI then 1 else 0
      { r with
        complete := b.complete, doneTime := b.doneTime, doneVisit := b.doneVisit,
        prevWeight := r.currentWeight * (1 - weightMod * 0.9),
        currentWeight := 0 }) := by
    rw [hcw]
    split_ifs <;> norm_num
  rw [heq]
  exact h

/-- Claim C7 witness: one fully-served program with usage ratio 1/2. -/
theorem endOfPassUpdate_damping_witness :
    ({ objid := "A", PI := "P", doneVisit := 0, doneTime := 0, totalTime := 2,
       complete := 1,
       prevWeight := (1:ℚ) / 2 *
        (if allDonePI
            [{ objid := "A", PI := "P", doneVisit := 2, doneTime := 1, totalTime := 2,
               complete := 1, prevWeight := 1, currentWeight := (1:ℚ)/2 }] "P"
          then 0.1 else 1),
       currentWeight := 0 } : DoneRow) ∈
      endOfPassUpdate
        [{ objid := "A", PI := "P", doneVisit := 2, doneTime := 1, totalTime := 2,
           complete := 1, prevWeight := 1, currentWeight := (1:ℚ)/2 }]
        [{ objid := "A", PI := "P", doneVisit := 0, doneTime := 0, totalTime := 2,
           complete := 1, prevWeight := 1, currentWeight := 0 }] :=
  endOfPassUpdate_damping
    [{ objid := "A", PI := "P", doneVisit := 2, doneTime := 1, totalTime := 2,
       complete := 1, prevWeight := 1, currentWeight := (1:ℚ)/2 }]
    [{ objid := "A", PI := "P", doneVisit := 0, doneTime := 0, totalTime := 2,
       complete := 1, prevWeight := 1, currentWeight := 0 }]
    { objid := "A", PI := "P", doneVisit := 2, doneTime := 1, totalTime := 2,
      complete := 1, prevWeight := 1, currentWeight := (1:ℚ)/2 }
    { objid := "A", PI := "P", doneVisit := 0, doneTime := 0, totalTime := 2,
      complete := 1, prevWeight := 1, currentWeight := 0 }
    (List.mem_singleton.mpr rfl) (by norm_num)

/-! ### One scheduling decision (MMTQueue.obsUpdateRow) -/

/-- The ephemeris/geometry-dependent per-candidate quantities computed at a
given start time: `fitWeight`, `obsTime` (= endTime - startTime) and
`nVisits` from `willItFitWeight`, the `moonFlag`, the slew `dist_weight`
and the priority weight `1/priority**3`.  These depend only on the request,
the start time and the (external) ephemeris and previous pointing, so they
enter the scheduling step as an oracle. -/
structure EvalOut where
  fitWeight : ℚ
  obsTime : ℚ
  moonFlag : ℚ
  nVisits : ℚ
  distWeight : ℚ
  priorFlag : ℚ
deriving DecidableEq

/-- One line of the per-night schedule: start time, duration in seconds,
request id, visits this slot. -/
structure SchedEntry where
  startTime : ℚ
  duration : ℚ
  objid : String
  nVisits : ℚ
deriving DecidableEq

/-- Weight-list entry for one open candidate. -/
structure Cand where
  objid : String
  info : EvalOut
  totalWeight : ℚ
deriving DecidableEq

/-- `obsUpdateRow`: build the weight list over all non-complete requests
(complete ones are skipped entirely), combining `fitWeight * moonFlag *
weightTAC * dist_weight * priorFlag / prevWeight`; return `(None, donePar)`
when the list is empty or its maximum weight is 0, otherwise commit one of
the maximal-weight candidates (the `randint` tie-break enters as the oracle
`pick`) through the Advancing update.  `fldRepeats` gives
`int(fldPar['repeats'])` for the winner's completion check. -/
def obsUpdateRowM (fldObjids : List String) (donePar : List DoneRow)
    (evalW : String → ℚ → EvalOut) (pick : ℕ → ℕ) (fldRepeats : String → ℚ)
    (startTime : ℚ) : Option SchedEntry × List DoneRow :=
  let cands : List Cand := fldObjids.filterMap fun oid =>
    match donePar.find? fun r => r.objid == oid with
    | none => none
    | some donefld =>
      if donefld.complete = 1 then none
      else
        let e := evalW oid startTime
        some ⟨oid, e,
          e.fitWeight * e.moonFlag * weightTAC donefld.doneTime donefld.totalTime *
            e.distWeight * e.priorFlag / donefld.prevWeight⟩
  match cands with
  | [] => (none, donePar)
  | c :: cs =>
    let maxWeight := (cs.map fun x => x.totalWeight).foldl max c.totalWeight
    if maxWeight = 0 then (none, donePar)
    else
      let hasMax := (c :: cs).filter fun x => x.totalWeight == maxWeight
      let sel := hasMax.getD (pick hasMax.length) c
      (some ⟨startTime, sel.info.obsTime, sel.objid, sel.info.nVisits⟩,
        advanceUpdate donePar sel.objid sel.info.obsTime sel.info.nVisits
          (pyInt (fldRepeats sel.objid)))

/-! ### One night (MMTQueue.obsOneNight) -/

/-- The per-night loop: starting at evening twilight, repeatedly run
`obsUpdateRow`; on no selection advance 20 minutes (1200 s), on a selection
append to the schedule, advance by the slot duration and recompute the
all-done flag (`min(donePar['complete'].values) == 1`).  The loop runs
while `currentTime < morningTwilight` and the all-done flag is unset; the
structural `fuel` bounds the iteration count (the Python `while` loop has
no such bound; every theorem below supplies enough fuel). -/
def obsOneNightLoop (morning : ℚ) (fldObjids : List String)
    (evalW : String → ℚ → EvalOut) (pick : ℕ → ℕ) (fldRepeats : String → ℚ)
    (fuel : ℕ) (donePar : List DoneRow) (currentTime : ℚ)
    (sched : List SchedEntry) (allDone : Bool) :
    List SchedEntry × List DoneRow × ℚ :=
  match fuel with
  | 0 => (sched, donePar, currentTime)
  | fuel' + 1 =>
    if currentTime < morning ∧ allDone = false then
      match obsUpdateRowM fldObjids donePar evalW pick fldRepeats currentTime with
      | (none, d) =>
        obsOneNightLoop morning fldObjids evalW pick fldRepeats fuel' d
          (currentTime + 1200) sched allDone
      | (some entry, d) =>
        obsOneNightLoop morning fldObjids evalW pick fldRepeats fuel' d
          (currentTime + entry.duration) (sched ++ [entry])
          (d.all fun r => r.complete == 1)
    else (sched, donePar, currentTime)

/-- `obsOneNight`: run the loop from evening twilight with an empty schedule
and the all-done flag initially false. -/
def obsOneNight (fuel : ℕ) (evening morning : ℚ) (fldObjids : List String)
    (evalW : String → ℚ → EvalOut) (pick : ℕ → ℕ) (fldRepeats : String → ℚ)
    (donePar : List DoneRow) : List SchedEntry × List DoneRow × ℚ :=
  obsOneNightLoop morning fldObjids evalW pick fldRepeats fuel donePar evening [] false

theorem obsUpdateRowM_all_complete (fldObjids : List String) (donePar : List DoneRow)
    (evalW : String → ℚ → EvalOut) (pick : ℕ → ℕ) (fldRepeats : String → ℚ) (t : ℚ)
    (hall : ∀ oid ∈ fldObjids,
      ((donePar.find? fun r => r.objid == oid).all fun r => r.complete == 1) = true) :
    obsUpdateRowM fldObjids donePar evalW pick fldRepeats t = (none, donePar) := by
  have hcands : (fldObjids.filterMap fun oid =>
      match donePar.find? fun r => r.objid == oid with
      | none => none
      | some donefld =>
        if donefld.complete = 1 then none
        else
          let e := evalW oid t
          some (⟨oid, e,
            e.fitWeight * e.moonFlag * weightTAC donefld.doneTime donefld.totalTime *
              e.distWeight * e.priorFlag / donefld.prevWeight⟩ : Cand)) = [] := by
    rw [List.filterMap_eq_nil_iff]
    intro oid hoid
    have h := hall oid hoid
    cases hfind : donePar.find? fun r => r.objid == oid with
    | none => rfl
    | some donefld =>
      rw [hfind] at h
      have hc : donefld.complete = 1 := by
        have h' : (donefld.complete == 1) = true := h
        exact beq_iff_eq.mp h'
      simp only [hc, ite_true]
  unfold obsUpdateRowM
  rw [hcands]

theorem obsOneNightLoop_all_complete (morning : ℚ) (fldObjids : List String)
    (evalW : String → ℚ → EvalOut) (pick : ℕ → ℕ) (fldRepeats : String → ℚ)
    (donePar : List DoneRow)
    (hall : ∀ oid ∈ fldObjids,
      ((donePar.find? fun r => r.objid == oid).all fun r => r.complete == 1) = true) :
    ∀ (fuel : ℕ) (cur : ℚ) (sched : List SchedEntry),
      ∃ k : ℕ, k ≤ fuel ∧
        obsOneNightLoop morning fldObjids evalW pick fldRepeats fuel donePar cur sched false =
          (sched, donePar, cur + 1200 * k) ∧
        (morning ≤ cur + 1200 * k ∨ k = fuel) := by
  intro fuel
  induction fuel with
  | zero =>
    intro cur sched
    refine ⟨0, le_refl 0, ?_, Or.inr rfl⟩
    unfold obsOneNightLoop
    norm_num
  | succ fuel' ih =>
    intro cur sched
    by_cases hcur : cur < morning
    · rcases ih (cur + 1200) sched with ⟨k, hk1, hk2, hk3⟩
      refine ⟨k + 1, by omega, ?_, ?_⟩
      · have harith : cur + 1200 + 1200 * (k:ℚ) = cur + 1200 * ((k + 1 : ℕ) : ℚ) := by
          push_cast
          ring
        unfold obsOneNightLoop
        rw [if_pos ⟨hcur, rfl⟩,
          obsUpdateRowM_all_complete fldObjids donePar evalW pick fldRepeats cur hall]
        show obsOneNightLoop morning fldObjids evalW pick fldRepeats fuel' donePar
          (cur + 1200) sched false = _
        rw [hk2, harith]
      · rcases hk3 with hk3 | hk3
        · left
          have harith : cur + 1200 + 1200 * (k:ℚ) = cur + 1200 * ((k + 1 : ℕ) : ℚ) := by
            push_cast
            ring
          rw [← harith]
          exact hk3
        · right
          omega
    · refine ⟨0, by omega, ?_, Or.inl (by push_cast; linarith [not_lt.mp hcur])⟩
      unfold obsOneNightLoop
      rw [if_neg (by intro hc; exact hcur hc.1)]
      norm_num

/-! ### Claim C9 -/

/-- Claim C9: running a night in which every request is already complete
produces an empty schedule, leaves the completion table untouched, and
advances time from evening twilight past morning twilight purely by the
fixed 1200-second idle steps. -/
theorem obsOneNight_all_complete (fuel : ℕ) (evening morning : ℚ)
    (fldObjids : List String) (evalW : String → ℚ → EvalOut) (pick : ℕ → ℕ)
    (fldRepeats : String → ℚ) (donePar : List DoneRow)
    (hall : ∀ oid ∈ fldObjids,
      ((donePar.find? fun r => r.objid == oid).all fun r => r.complete == 1) = true)
    (hfuel : morning ≤ evening + 1200 * fuel) :
    (obsOneNight fuel evening morning fldObjids evalW pick fldRepeats donePar).1 = [] ∧
    (obsOneNight fuel evening morning fldObjids evalW pick fldRepeats donePar).2.1 =
      donePar ∧
    morning ≤ (obsOneNight fuel evening morning fldObjids evalW pick fldRepeats donePar).2.2 ∧
    (∃ k : ℕ, (obsOneNight fuel evening morning fldObjids evalW pick fldRepeats
      donePar).2.2 = evening + 1200 * k) := by
  rcases obsOneNightLoop_all_complete morning fldObjids evalW pick fldRepeats donePar hall
    fuel evening [] with ⟨k, hk1, hk2, hk3⟩
  have hend : morning ≤ evening + 1200 * (k:ℚ) := by
    rcases hk3 with hk3 | hk3
    · exact hk3
    · rw [hk3]
      exact hfuel
  unfold obsOneNight
  rw [hk2]
  exact ⟨rfl, rfl, hend, ⟨k, rfl⟩⟩

/-- Claim C9 witness: one already-complete request, a 2000-second night,
two idle steps available. -/
theorem obsOneNight_all_complete_witness :
    (obsOneNight 2 0 2000 ["A"] (fun _ _ => ⟨0, 0, 0, 0, 1, 1⟩) (fun _ => 0) (fun _ => 1)
      [{ objid := "A", PI := "P", doneVisit := 2, doneTime := 0, totalTime := 1,
         complete := 1, prevWeight := 1, currentWeight := 0 }]).1 = [] ∧
    (obsOneNight 2 0 2000 ["A"] (fun _ _ => ⟨0, 0, 0, 0, 1, 1⟩) (fun _ => 0) (fun _ => 1)
      [{ objid := "A", PI := "P", doneVisit := 2, doneTime := 0, totalTime := 1,
         complete := 1, prevWeight := 1, currentWeight := 0 }]).2.1 =
      [{ objid := "A", PI := "P", doneVisit := 2, doneTime := 0, totalTime := 1,
         complete := 1, prevWeight := 1, currentWeight := 0 }] ∧
    (2000:ℚ) ≤ (obsOneNight 2 0 2000 ["A"] (fun _ _ => ⟨0, 0, 0, 0, 1, 1⟩) (fun _ => 0)
      (fun _ => 1)
      [{ objid := "A", PI := "P", doneVisit := 2, doneTime := 0, totalTime := 1,
         complete := 1, prevWeight := 1, currentWeight := 0 }]).2.2 := by
  have h := obsOneNight_all_complete 2 0 2000 ["A"] (fun _ _ => ⟨0, 0, 0, 0, 1, 1⟩)
    (fun _ => 0) (fun _ => 1)
    [{ objid := "A", PI := "P", doneVisit := 2, doneTime := 0, totalTime := 1,
       complete := 1, prevWeight := 1, currentWeight := 0 }]
    (by
      intro oid hoid
      simp only [List.mem_singleton] at hoid
      subst hoid
      rfl)
    (by norm_num)
  exact ⟨h.1, h.2.1, h.2.2.1⟩

/-! ### Claim C10 -/

/-- Claim C10 counterexample: a fresh one-request campaign whose request
never accrues weight (e.g. never observable) gets no observing time in the
first pass, so its `currentWeight` stays 0; the end-of-pass rebalance then
sets `prevWeight = 0 * (1 - 0*0.9) = 0` while the request stays open
(`complete = 0`), so the weight engine's division by `prevWeight` in the
next pass has a zero divisor. -/
theorem prevWeight_zero_counterexample :
    createBlankDoneMask [("A", "P")] (fun _ => none) =
      [{ objid := "A", PI := "P", doneVisit := 0, doneTime := 0, totalTime := 0.01,
         complete := 0, prevWeight := 1, currentWeight := 0 }] ∧
    (obsOneNight 2 0 1000 ["A"] (fun _ _ => ⟨0, 0, 0, 0, 1, 1⟩) (fun _ => 0) (fun _ => 1)
      [{ objid := "A", PI := "P", doneVisit := 0, doneTime := 0, totalTime := 0.01,
         complete := 0, prevWeight := 1, currentWeight := 0 }]).2.1 =
      [{ objid := "A", PI := "P", doneVisit := 0, doneTime := 0, totalTime := 0.01,
         complete := 0, prevWeight := 1, currentWeight := 0 }] ∧
    ((endOfPassUpdate
        [{ objid := "A", PI := "P", doneVisit := 0, doneTime := 0, totalTime := 0.01,
           complete := 0, prevWeight := 1, currentWeight := 0 }]
        [{ objid := "A", PI := "P", doneVisit := 0, doneTime := 0, totalTime := 0.01,
           complete := 0, prevWeight := 1, currentWeight := 0 }]).map
      fun r => (r.complete, r.prevWeight)) = [((0:ℤ), (0:ℚ))] := by
  have hstep : ∀ t : ℚ, obsUpdateRowM ["A"]
      [{ objid := "A", PI := "P", doneVisit := 0, doneTime := 0, totalTime := 0.01,
         complete := 0, prevWeight := 1, currentWeight := 0 }]
      (fun _ _ => ⟨0, 0, 0, 0, 1, 1⟩) (fun _ => 0) (fun _ => 1) t =
      (none,
        [{ objid := "A", PI := "P", doneVisit := 0, doneTime := 0, totalTime := 0.01,
           complete := 0, prevWeight := 1, currentWeight := 0 }]) := by
    intro t
    simp [obsUpdateRowM, weightTAC, List.find?]
  refine ⟨rfl, ?_, ?_⟩
  · unfold obsOneNight
    unfold obsOneNightLoop
    rw [if_pos (⟨by norm_num, rfl⟩ : ((0:ℚ) < 1000 ∧ false = false)), hstep 0]
    show (obsOneNightLoop 1000 ["A"] (fun _ _ => ⟨0, 0, 0, 0, 1, 1⟩) (fun _ => 0) (fun _ => 1)
      1
      [{ objid := "A", PI := "P", doneVisit := 0, doneTime := 0, totalTime := 0.01,
         complete := 0, prevWeight := 1, currentWeight := 0 }]
      (0 + 1200) [] false).2.1 = _
    unfold obsOneNightLoop
    rw [if_neg (by
      intro h
      have h1 := h.1
      norm_num at h1)]
  · simp [endOfPassUpdate, allDonePI]

/-- Claim C10 (amended): the damping divisor `prevWeight` is 1 (hence
nonzero) for every row of the initial blank table, and after a pass it is
`currentWeight * (1 - weightMod * 0.9)` whose second factor is 0.1 or 1, so
it is nonzero exactly for rows whose program accrued a nonzero
`currentWeight` during the pass; a program that received zero observing
time in a pass enters the next pass with divisor 0. -/
theorem prevWeight_nonzero_amended
    (obs : List (String × String)) (alloc : String → Option ℚ)
    (donePar baseline : List DoneRow) (r b : DoneRow) :
    (∀ row ∈ createBlankDoneMask obs alloc, row.prevWeight ≠ 0) ∧
    ((r, b) ∈ donePar.zip baseline → r.currentWeight ≠ 0 →
      (({ r with
          complete := b.complete, doneTime := b.doneTime, doneVisit := b.doneVisit,
          prevWeight := r.currentWeight *
            (1 - (if allDonePI donePar r.PI then (1:ℚ) else 0) * 0.9),
          currentWeight := 0 } : DoneRow) ∈ endOfPassUpdate donePar baseline ∧
        r.currentWeight * (1 - (if allDonePI donePar r.PI then (1:ℚ) else 0) * 0.9) ≠ 0)) := by
  constructor
  · intro row hrow
    unfold createBlankDoneMask at hrow
    rcases List.mem_map.mp hrow with ⟨p, _, rfl⟩
    norm_num
  · intro hmem hcw
    constructor
    · have h := List.mem_map_of_mem (f := fun rb : DoneRow × DoneRow =>
        let weightMod : ℚ := if allDonePI donePar rb.1.PI then 1 else 0
        { rb.1 with
          complete := rb.2.complete, doneTime := rb.2.doneTime, doneVisit := rb.2.doneVisit,
          prevWeight := rb.1.currentWeight * (1 - weightMod * 0.9),
          currentWeight := 0 }) hmem
      exact h
    · have hfac : (1 - (if allDonePI donePar r.PI then (1:ℚ) else 0) * 0.9) ≠ 0 := by
        split_ifs <;> norm_num
      exact mul_ne_zero hcw hfac

/-- Claim C10 witness: a program with nonzero accrued `currentWeight` keeps
a nonzero damping divisor for the next pass. -/
theorem prevWeight_nonzero_amended_witness :
    (({ objid := "B", PI := "Q", doneVisit := 0, doneTime := 0, totalTime := 2,
        complete := 0,
        prevWeight := (1:ℚ)/2 *
          (1 - (if allDonePI
              [{ objid := "B", PI := "Q", doneVisit := 1, doneTime := 1, totalTime := 2,
                 complete := 0, prevWeight := 1, currentWeight := (1:ℚ)/2 }] "Q"
            then (1:ℚ) else 0) * 0.9),
        currentWeight := 0 } : DoneRow) ∈
      endOfPassUpdate
        [{ objid := "B", PI := "Q", doneVisit := 1, doneTime := 1, totalTime := 2,
           complete := 0, prevWeight := 1, currentWeight := (1:ℚ)/2 }]
        [{ objid := "B", PI := "Q", doneVisit := 0, doneTime := 0, totalTime := 2,
           complete := 0, prevWeight := 1, currentWeight := 0 }] ∧
      (1:ℚ)/2 *
        (1 - (if allDonePI
            [{ objid := "B", PI := "Q", doneVisit := 1, doneTime := 1, totalTime := 2,
               complete := 0, prevWeight := 1, currentWeight := (1:ℚ)/2 }] "Q"
          then (1:ℚ) else 0) * 0.9) ≠ 0) :=
  (prevWeight_nonzero_amended [] (fun _ => none)
    [{ objid := "B", PI := "Q", doneVisit := 1, doneTime := 1, totalTime := 2,
       complete := 0, prevWeight := 1, currentWeight := (1:ℚ)/2 }]
    [{ objid := "B", PI := "Q", doneVisit := 0, doneTime := 0, totalTime := 2,
       complete := 0, prevWeight := 1, currentWeight := 0 }]
    { objid := "B", PI := "Q", doneVisit := 1, doneTime := 1, totalTime := 2,
      complete := 0, prevWeight := 1, currentWeight := (1:ℚ)/2 }
    { objid := "B", PI := "Q", doneVisit := 0, doneTime := 0, totalTime := 2,
      complete := 0, prevWeight := 1, currentWeight := 0 }).2
    (List.mem_singleton.mpr rfl) (by norm_num)

end MMTQueue
